import Mathlib

/-!
Verification development for the walk-and-classify-and-delete core of
src/python-cleaner.py (classes Scanner and Cleaner).

The filesystem is embedded as a tree of entries (a mutual inductive, so
that every function on it is structurally recursive and evaluates inside
the kernel).  The Scanner thread body (Scanner.run in the source) is
embedded as a pure function from a filesystem, a list of root paths, the
option dictionary and the current time to the data carried by the signals
it emits: the found-item signals (the candidate list), the scan-finished
signal (success flag, item count, size argument) and the warning logs for
missing roots.  The Cleaner thread body (Cleaner.run) is embedded as a
pure function from a filesystem and an item list to the resulting
filesystem together with the data of its signals.  Exceptions in the
Python code are embedded with Except, the error value carrying the local
accumulator state visible to the handler.  Progress-percentage signals
are not modelled; no claim mentions them.
-/

namespace PyCleaner

mutual

/-- A filesystem entry.  A file carries its size in bytes, its access time
in whole seconds, and a flag statErr meaning that calling stat on it
raises PermissionError or FileNotFoundError; a directory carries its child
entries in listing order and a flag listErr meaning that os.scandir on it
raises PermissionError or FileNotFoundError. -/
inductive Entry : Type
  | file (name : String) (size : Nat) (atime : Int) (statErr : Bool)
  | dir (name : String) (entries : EntryList) (listErr : Bool)
deriving Repr

/-- A directory listing, in listing order. -/
inductive EntryList : Type
  | nil
  | cons (e : Entry) (rest : EntryList)
deriving Repr

end

/-- Build a listing from a Lean list literal. -/
def EntryList.ofList : List Entry → EntryList
  | [] => .nil
  | e :: rest => .cons e (EntryList.ofList rest)

/-- The name component of an entry. -/
def Entry.name : Entry → String
  | .file n _ _ _ => n
  | .dir n _ _ => n

/-- The direct children of an entry (empty for a file). -/
def Entry.childEntries : Entry → EntryList
  | .file _ _ _ _ => .nil
  | .dir _ es _ => es

/-- Python str.endswith, modelled on the character sequence. -/
def strEndsWith (s suf : String) : Bool := suf.data.isSuffixOf s.data

/-- The first entry of a listing with the given name, if any. -/
def findByName : EntryList → String → Option Entry
  | .nil, _ => none
  | .cons e rest, n => if e.name = n then some e else findByName rest n

/-- Resolve a path, given as a list of name components, inside a tree.
Models following a path from a scan root on the real filesystem. -/
def lookup : Entry → List String → Option Entry
  | e, [] => some e
  | .dir _ es _, n :: rest =>
      match findByName es n with
      | some c => lookup c rest
      | none => none
  | .file _ _ _ _, _ :: _ => none

/-- os.path.exists on a path inside the tree. -/
def pathExistsB (w : Entry) (p : List String) : Bool := (lookup w p).isSome

/-- os.path.isdir on a path inside the tree. -/
def isDirAt (w : Entry) (p : List String) : Bool :=
  match lookup w p with
  | some (Entry.dir _ _ _) => true
  | _ => false

/-- os.path.isfile on a path inside the tree. -/
def isFileAt (w : Entry) (p : List String) : Bool :=
  match lookup w p with
  | some (Entry.file _ _ _ _) => true
  | _ => false

/-- Map a function over a listing. -/
def mapEL (f : Entry → Entry) : EntryList → EntryList
  | .nil => .nil
  | .cons e rest => .cons (f e) (mapEL f rest)

/-- Drop the entries of a listing carrying the given name. -/
def filterOutName (n : String) : EntryList → EntryList
  | .nil => .nil
  | .cons e rest =>
      if e.name = n then filterOutName n rest
      else .cons e (filterOutName n rest)

/-- Remove the node at the given path from the tree, used for both
shutil.rmtree (directory) and os.remove (file): either call erases
exactly the node at that path, a directory taking its whole subtree with
it. -/
def removePath : Entry → List String → Entry
  | e, [] => e
  | .dir dn es le, [n] => .dir dn (filterOutName n es) le
  | .dir dn es le, n :: rest =>
      .dir dn (mapEL (fun c => if c.name = n then removePath c rest else c) es) le
  | e, _ :: _ => e

/-- Scanner._get_dir_size on the listing of one directory: iterates the
listing in order, adding file sizes and recursive directory sizes.  The
try in the source wraps the whole scandir loop, so the first stat error in
a listing abandons the remainder of that listing, returning the total
accumulated so far at that level; a recursive call contains its own
errors because each invocation has its own try, and a subdirectory whose
scandir raises contributes 0. -/
def sizeEntries : EntryList → Nat
  | .nil => 0
  | .cons (.file _ sz _ false) rest => sz + sizeEntries rest
  | .cons (.file _ _ _ true) _ => 0
  | .cons (.dir _ es le) rest => (if le then 0 else sizeEntries es) + sizeEntries rest

/-- Scanner._get_dir_size applied to a directory entry.  If os.scandir on
it raises, the except clause returns the initial total 0.  The source
only ever calls it on directory paths; the file case is unreachable
there. -/
def Scanner.getDirSize : Entry → Nat
  | Entry.file _ _ _ _ => 0
  | Entry.dir _ es le => if le then 0 else sizeEntries es

/-- The size the specification describes for a directory: the sum of the
sizes of all regular files transitively contained in it, where an entry
that raises on stat or scandir is excluded and every other entry is kept.
Written from the words of the specification, for comparison with
Scanner.getDirSize. -/
def specSizeEntries : EntryList → Nat
  | .nil => 0
  | .cons (.file _ sz _ serr) rest => (if serr then 0 else sz) + specSizeEntries rest
  | .cons (.dir _ es le) rest => (if le then 0 else specSizeEntries es) + specSizeEntries rest

/-- Specification-side directory size, see specSizeEntries. -/
def specDirSize : Entry → Nat
  | Entry.file _ _ _ _ => 0
  | Entry.dir _ es le => if le then 0 else specSizeEntries es

/-- No entry of the listing (transitively) carries a stat or listing
error. -/
def errFreeList : EntryList → Bool
  | .nil => true
  | .cons (.file _ _ _ serr) rest => !serr && errFreeList rest
  | .cons (.dir _ es le) rest => !le && errFreeList es && errFreeList rest

mutual

/-- os.walk on one root entry, top down: the listing of each directory is
yielded as one level (the walk keeps the full child list, the source
copies dirs with a slice but never prunes it), then each subdirectory is
walked in listing order.  A directory whose scandir raises contributes no
levels, matching the default onerror behaviour of os.walk. -/
def walkEntry (path : List String) : Entry → List (List String × Entry)
  | .file _ _ _ _ => []
  | .dir n es le =>
      if le then [] else (path, Entry.dir n es le) :: walkChildren path es

/-- The walk of the subdirectories of one listing, see walkEntry. -/
def walkChildren (path : List String) : EntryList → List (List String × Entry)
  | .nil => []
  | .cons (.file _ _ _ _) rest => walkChildren path rest
  | .cons (.dir n es le) rest =>
      (if le then []
       else (path ++ [n], Entry.dir n es le) :: walkChildren (path ++ [n]) es)
      ++ walkChildren path rest

end

/-- A found-item signal: path, category string, size in bytes, and the
default-checked flag carried as the fourth signal argument. -/
structure Candidate where
  path : List String
  category : String
  sizeBytes : Nat
  preselected : Bool
deriving Repr, DecidableEq

/-- The local accumulator state of Scanner.run: total_items, total_size,
and the found-item signals emitted so far in order. -/
structure SState where
  items : Nat
  size : Nat
  cands : List Candidate
deriving Repr, DecidableEq

/-- The accumulator at the start of Scanner.run. -/
def SState.init : SState := ⟨0, 0, []⟩

/-- One match: total_items += 1, total_size += size, then the found-item
signal is emitted. -/
def emit (st : SState) (p : List String) (cat : String) (sz : Nat) (pre : Bool) : SState :=
  ⟨st.items + 1, st.size + sz, st.cands ++ [⟨p, cat, sz, pre⟩]⟩

/-- The scan_options dictionary as the UI fills it in. -/
structure ScanOptions where
  pycache : Bool
  pyc_files : Bool
  venv : Bool
  venv_days : Nat
  jupyter : Bool
  temp_files : Bool
  build_dirs : Bool
deriving Repr, DecidableEq

/-- Rule 1 of Scanner.run: for each directory of the level named
__pycache__, compute its size and emit a pycache candidate, checked. -/
def pycacheFold (root : List String) : EntryList → SState → SState
  | .nil, st => st
  | .cons (.dir n es le) rest, st =>
      pycacheFold root rest
        (if n = "__pycache__" then
          emit st (root ++ [n]) "pycache" (Scanner.getDirSize (Entry.dir n es le)) true
        else st)
  | .cons (.file _ _ _ _) rest, st => pycacheFold root rest st

/-- Rule 2 of Scanner.run: for each file of the level with suffix .pyc,
os.path.getsize is called, raising out of the loop when stat on the file
raises, and a pyc candidate is emitted, checked. -/
def pycFold (root : List String) : EntryList → SState → Except SState SState
  | .nil, st => .ok st
  | .cons (.file n sz _ serr) rest, st =>
      if strEndsWith n ".pyc" then
        if serr then .error st
        else pycFold root rest (emit st (root ++ [n]) "pyc" sz true)
      else pycFold root rest st
  | .cons (.dir _ _ _) rest, st => pycFold root rest st

/-- Whether the listing has an entry with the given name, of either kind:
models os.path.exists of a name joined under the current directory. -/
def hasName : EntryList → String → Bool
  | .nil, _ => false
  | .cons e rest, m => (e.name = m) || hasName rest m

/-- Whether a child directory with name sub contains an entry named m:
models os.path.exists of root, sub, m joined. -/
def hasInSubdir : EntryList → String → String → Bool
  | .nil, _, _ => false
  | .cons (.dir n ces _) rest, sub, m =>
      (n = sub && hasName ces m) || hasInSubdir rest sub m
  | .cons (.file _ _ _ _) rest, sub, m => hasInSubdir rest sub m

/-- The venv marker test of Scanner.run: one of the four marker names
exists directly in the directory, or under bin, or under Scripts. -/
def isVenv (e : Entry) : Bool :=
  ["pyvenv.cfg", "activate", "python.exe", "pip.exe"].any fun m =>
    hasName e.childEntries m
    || hasInSubdir e.childEntries "bin" m
    || hasInSubdir e.childEntries "Scripts" m

/-- The access times of the direct file children of a directory, in
listing order.  os.path.isfile returns False for a file whose stat
raises, so such files are filtered out before os.path.getatime is
reached. -/
def directFileAtimes : EntryList → List Int
  | .nil => []
  | .cons (.file _ _ a false) rest => a :: directFileAtimes rest
  | .cons _ rest => directFileAtimes rest

/-- Maximum of a head element and a tail list, models Python max over a
nonempty sequence. -/
def maxOf (x : Int) (xs : List Int) : Int := xs.foldl max x

/-- Rule 3 of Scanner.run: when the current directory carries a venv
marker, take the maximum access time over its direct file children.  With
no such child, max is applied to an empty sequence and raises ValueError,
which nothing catches before the top-level handler of run: the error
value carries the accumulator at that point.  Otherwise, if the days
since that access exceed venv_days, emit a venv candidate, unchecked.
The source comparison (now - last) / 86400 > venv_days over the reals is
written multiplied out over the integers, an exact transformation. -/
def venvStep (opts : ScanOptions) (now : Int) (root : List String) (e : Entry)
    (st : SState) : Except SState SState :=
  if opts.venv then
    if isVenv e then
      match directFileAtimes e.childEntries with
      | [] => .error st
      | a :: as =>
        if (now - maxOf a as) > (opts.venv_days : Int) * (60 * 60 * 24) then
          .ok (emit st root "venv" (Scanner.getDirSize e) false)
        else .ok st
    else .ok st
  else .ok st

/-- Rule 4 of Scanner.run: for each directory of the level named
.ipynb_checkpoints, emit a jupyter candidate, checked. -/
def jupyterFold (root : List String) : EntryList → SState → SState
  | .nil, st => st
  | .cons (.dir n es le) rest, st =>
      jupyterFold root rest
        (if n = ".ipynb_checkpoints" then
          emit st (root ++ [n]) "jupyter" (Scanner.getDirSize (Entry.dir n es le)) true
        else st)
  | .cons (.file _ _ _ _) rest, st => jupyterFold root rest st

/-- Rule 5 of Scanner.run: for each file of the level with suffix
.pyc.tmp, .py~ or .pyo, call os.path.getsize and emit a temp candidate,
checked. -/
def tempFold (root : List String) : EntryList → SState → Except SState SState
  | .nil, st => .ok st
  | .cons (.file n sz _ serr) rest, st =>
      if strEndsWith n ".pyc.tmp" || strEndsWith n ".py~" || strEndsWith n ".pyo" then
        if serr then .error st
        else tempFold root rest (emit st (root ++ [n]) "temp" sz true)
      else tempFold root rest st
  | .cons (.dir _ _ _) rest, st => tempFold root rest st

/-- Rule 6 of Scanner.run: the source tests dir_name in the literal
three-element list of the strings build, dist, *.egg-info, so only a
directory whose name is literally one of those three strings matches; no
glob expansion takes place. -/
def buildFold (root : List String) : EntryList → SState → SState
  | .nil, st => st
  | .cons (.dir n es le) rest, st =>
      buildFold root rest
        (if n = "build" ∨ n = "dist" ∨ n = "*.egg-info" then
          emit st (root ++ [n]) "build" (Scanner.getDirSize (Entry.dir n es le)) true
        else st)
  | .cons (.file _ _ _ _) rest, st => buildFold root rest st

/-- Sequencing of two steps of the loop body: a raised exception skips
everything after it. -/
def bindE (x : Except SState SState) (f : SState → Except SState SState) :
    Except SState SState :=
  match x with
  | .ok s => f s
  | .error e => .error e

/-- One iteration of the walk loop of Scanner.run: the six rules applied
in source order to one yielded directory level. -/
def processLevel (opts : ScanOptions) (now : Int) (pe : List String × Entry)
    (st : SState) : Except SState SState :=
  let root := pe.1
  let es := pe.2.childEntries
  bindE (.ok (if opts.pycache then pycacheFold root es st else st)) fun st1 =>
  bindE (if opts.pyc_files then pycFold root es st1 else .ok st1) fun st2 =>
  bindE (venvStep opts now root pe.2 st2) fun st3 =>
  bindE (.ok (if opts.jupyter then jupyterFold root es st3 else st3)) fun st4 =>
  bindE (if opts.temp_files then tempFold root es st4 else .ok st4) fun st5 =>
  .ok (if opts.build_dirs then buildFold root es st5 else st5)

/-- The walk loop over a list of yielded levels, short-circuiting on the
first uncaught exception. -/
def scanCore (opts : ScanOptions) (now : Int) :
    List (List String × Entry) → SState → Except SState SState
  | [], st => .ok st
  | l :: ls, st =>
      match processLevel opts now l st with
      | .ok st2 => scanCore opts now ls st2
      | .error e => .error e

/-- The concatenated walk levels of the given roots, in root order. -/
def Scanner.levels (w : Entry) : List (List String) → List (List String × Entry)
  | [] => []
  | p :: ps =>
      (match lookup w p with
       | some e => walkEntry p e
       | none => []) ++ Scanner.levels w ps

/-- The size argument of the scan_finished signal on the success path:
total_size divided by 1024 * 1024 (bytes converted to MB). -/
def scanSizeArgOk (bytes : Nat) : ℚ := (bytes : ℚ) / (1024 * 1024)

/-- The size argument of the scan_finished signal in the top-level except
handler of Scanner.run: total_size passed through raw, in bytes. -/
def scanSizeArgErr (bytes : Nat) : ℚ := (bytes : ℚ)

/-- The data of the signals Scanner.run emits: the scan_finished
arguments (success, count, size argument), the raw byte accumulator
behind the size argument, the found-item signals in order, and the number
of path-does-not-exist warning logs. -/
structure ScanResult where
  success : Bool
  count : Nat
  bytesAccum : Nat
  sizeArg : ℚ
  cands : List Candidate
  warnLogs : Nat
deriving Repr

/-- The two exits of Scanner.run: on normal completion scan_finished
carries True, total_items and the MB value; in the top-level except
handler it carries False, total_items and the raw byte value, the
candidates emitted before the exception staying emitted. -/
def Scanner.finish (x : Except SState SState) (warns : Nat) : ScanResult :=
  match x with
  | .ok st => ⟨true, st.items, st.size, scanSizeArgOk st.size, st.cands, warns⟩
  | .error st => ⟨false, st.items, st.size, scanSizeArgErr st.size, st.cands, warns⟩

/-- Scanner.run: validate the roots, logging a warning per missing root;
with no valid root left, emit scan_finished (False, 0, 0) and return.
Otherwise walk the valid roots in order.  The cooperative stop flag is
polled at the top of each walk iteration; its transition to False after n
processed levels is modelled by the stopAfter parameter cutting the level
list to its first n elements (a stopped scan also breaks out of every
later loop at its first poll, so nothing after the cut contributes).  On
normal completion scan_finished carries True, total_items and the MB
value; an uncaught exception reaches the top-level handler, which emits
False, total_items and the raw byte value. -/
def Scanner.run (w : Entry) (roots : List (List String)) (opts : ScanOptions)
    (now : Int) (stopAfter : Option Nat) : ScanResult :=
  let valid := roots.filter fun p => pathExistsB w p
  let warns := (roots.filter fun p => ! pathExistsB w p).length
  if valid.isEmpty then
    ⟨false, 0, 0, 0, [], warns⟩
  else
    let lvls :=
      match stopAfter with
      | some n => (Scanner.levels w valid).take n
      | none => Scanner.levels w valid
    Scanner.finish (scanCore opts now lvls SState.init) warns

/-- The local accumulator state of Cleaner.run: items_cleaned,
total_size_cleaned, the number of error logs from per-item except
clauses, and the number of clean_progress signals emitted. -/
structure CState where
  removed : Nat
  bytes : Nat
  errLogs : Nat
  progress : Nat
deriving Repr, DecidableEq

/-- The item loop of Cleaner.run over (path, type, size) triples.
delFails lists the paths whose shutil.rmtree or os.remove call raises an
OS-level error (permission denied and the like); such an item is logged
as an error and skipped without counting.  For an existing path the node
is removed and both counters advance.  When the path is neither a
directory nor a file, both branches of the if are skipped, no exception
is raised, and the counters still advance: a missing path is silently
counted as cleaned.  The clean_progress signal is emitted before the
try. -/
def cleanLoop (delFails : List (List String)) :
    List (List String × String × Nat) → Entry → CState → Entry × CState
  | [], w, st => (w, st)
  | (p, _, sz) :: rest, w, st =>
      let st1 : CState := ⟨st.removed, st.bytes, st.errLogs, st.progress + 1⟩
      if isDirAt w p ∨ isFileAt w p then
        if p ∈ delFails then
          cleanLoop delFails rest w ⟨st1.removed, st1.bytes, st1.errLogs + 1, st1.progress⟩
        else
          cleanLoop delFails rest (removePath w p)
            ⟨st1.removed + 1, st1.bytes + sz, st1.errLogs, st1.progress⟩
      else
        cleanLoop delFails rest w ⟨st1.removed + 1, st1.bytes + sz, st1.errLogs, st1.progress⟩

/-- The size argument of the clean_finished signal on the success path:
total_size_cleaned divided by 1024 * 1024 (bytes converted to MB). -/
def cleanSizeArgOk (bytes : Nat) : ℚ := (bytes : ℚ) / (1024 * 1024)

/-- The size argument of the clean_finished signal in the top-level
except handler of Cleaner.run: total_size_cleaned passed through raw, in
bytes. -/
def cleanSizeArgErr (bytes : Nat) : ℚ := (bytes : ℚ)

/-- The data of the signals Cleaner.run emits, plus the filesystem after
the deletions. -/
structure CleanResult where
  success : Bool
  itemsRemoved : Nat
  bytesAccum : Nat
  sizeArg : ℚ
  errLogs : Nat
  progressEmits : Nat
  world : Entry
deriving Repr

/-- Cleaner.run: iterate the confirmed items in order.  The stop flag is
polled before each item; its transition to False is modelled by stopAfter
cutting the item list.  Every per-item OS error is caught inside the
loop, so the loop body never raises and the clean_finished signal always
carries True, items_cleaned and the MB value. -/
def Cleaner.run (w : Entry) (items : List (List String × String × Nat))
    (delFails : List (List String)) (stopAfter : Option Nat) : CleanResult :=
  let items2 :=
    match stopAfter with
    | some n => items.take n
    | none => items
  match cleanLoop delFails items2 w ⟨0, 0, 0, 0⟩ with
  | (w2, st) => ⟨true, st.removed, st.bytes, cleanSizeArgOk st.bytes, st.errLogs, st.progress, w2⟩

/-- The tree of the end-to-end test of the specification: a root
directory tree containing proj, with proj/__pycache__/a.pyc of 10 bytes
and proj/module.pyc of 20 bytes. -/
def w1 : Entry :=
  Entry.dir "" (.ofList [
    Entry.dir "tree" (.ofList [
      Entry.dir "proj" (.ofList [
        Entry.dir "__pycache__" (.ofList [Entry.file "a.pyc" 10 0 false]) false,
        Entry.file "module.pyc" 20 0 false]) false]) false]) false

/-- Only the pycache and pyc rules enabled. -/
def opts1 : ScanOptions := ⟨true, true, false, 30, false, false, false⟩

/-- A world for the clean counterexample: one directory d1, one file f1,
and nothing named missing. -/
def w2 : Entry :=
  Entry.dir "" (.ofList [
    Entry.dir "d1" (.ofList [Entry.file "x" 5 0 false]) false,
    Entry.file "f1" 3 0 false]) false

/-- A tree containing a directory named foo.egg-info (with content, so a
match would have nonzero size), plus directories literally named build,
dist and *.egg-info. -/
def w3 : Entry :=
  Entry.dir "" (.ofList [
    Entry.dir "tree3" (.ofList [
      Entry.dir "foo.egg-info" (.ofList [Entry.file "x" 5 0 false]) false,
      Entry.dir "build" .nil false,
      Entry.dir "dist" .nil false,
      Entry.dir "*.egg-info" .nil false]) false]) false

/-- Only the build rule enabled. -/
def opts3 : ScanOptions := ⟨false, false, false, 30, false, false, true⟩

/-- A tree whose walk first reaches a venv-marked directory v with zero
direct file entries (its only child is the directory bin holding the
marker activate), and later a __pycache__ directory under dir w. -/
def w4 : Entry :=
  Entry.dir "" (.ofList [
    Entry.dir "tree4" (.ofList [
      Entry.dir "v" (.ofList [
        Entry.dir "bin" (.ofList [Entry.file "activate" 1 0 false]) false]) false,
      Entry.dir "w" (.ofList [
        Entry.dir "__pycache__" (.ofList [Entry.file "a.pyc" 4 0 false]) false]) false]) false]) false

/-- venv and pycache rules enabled. -/
def opts4 : ScanOptions := ⟨true, false, true, 30, false, false, false⟩

/-- Same as opts4 with the venv rule disabled. -/
def opts4b : ScanOptions := ⟨true, false, false, 30, false, false, false⟩

/-- A tree where a pycache candidate of 7 bytes is accumulated before the
walk reaches an empty venv directory and aborts: exercises the except
path of Scanner.run with a nonzero accumulator. -/
def w10 : Entry :=
  Entry.dir "" (.ofList [
    Entry.dir "tree10" (.ofList [
      Entry.dir "__pycache__" (.ofList [Entry.file "a.pyc" 7 0 false]) false,
      Entry.dir "v" (.ofList [
        Entry.dir "bin" (.ofList [Entry.file "activate" 1 0 false]) false]) false]) false]) false

/-- The scan of the end-to-end tree with pycache and pyc enabled. -/
def scan1 : ScanResult := Scanner.run w1 [["tree"]] opts1 0 none

/-- Cleaning the two candidates the specification confirms in the
end-to-end test: the __pycache__ directory and module.pyc. -/
def clean1 : CleanResult :=
  Cleaner.run w1
    [(["tree", "proj", "__pycache__"], "pycache", 10),
     (["tree", "proj", "module.pyc"], "pyc", 20)] [] none

/-- A three-item list whose middle path does not exist in w2. -/
def items3 : List (List String × String × Nat) :=
  [(["d1"], "pycache", 5), (["missing"], "pyc", 7), (["f1"], "pyc", 3)]

/-- Cleaning a three-item list whose middle path does not exist. -/
def clean2 : CleanResult := Cleaner.run w2 items3 [] none

/-- A directory whose listing holds an erroring file before an intact
one: the stat error aborts the rest of the listing in
Scanner._get_dir_size. -/
def d5 : Entry :=
  Entry.dir "d5" (.ofList [Entry.file "bad" 100 0 true, Entry.file "good" 7 0 false]) false

/-- A stale virtual environment: a directory carrying the pyvenv.cfg
marker as a direct file last accessed at time 0. -/
def w6 : Entry :=
  Entry.dir "" (.ofList [
    Entry.dir "venv1" (.ofList [Entry.file "pyvenv.cfg" 50 0 false]) false]) false

/-- Only the venv rule enabled. -/
def opts6 : ScanOptions := ⟨false, false, true, 30, false, false, false⟩

/-- The accumulator state after the first two walk levels of the
end-to-end tree, used to exercise the stop flag. -/
def stStop : SState :=
  ⟨2, 30, [⟨["tree", "proj", "__pycache__"], "pycache", 10, true⟩,
           ⟨["tree", "proj", "module.pyc"], "pyc", 20, true⟩]⟩

/-- The state an Except outcome carries, whichever side it is on. -/
def eState : Except SState SState → SState
  | .ok s => s
  | .error e => e

/-- The per-candidate shape of the preselection flag as the emit sites
write it: checked exactly when the category is not venv. -/
def CandOK (c : Candidate) : Prop := c.preselected = true ↔ c.category ≠ "venv"

/-- The loop invariant of Scanner.run: total_items counts the emitted
candidates, and every emitted candidate has the preselection flag of its
category. -/
def Inv (st : SState) : Prop :=
  st.items = st.cands.length ∧ ∀ c ∈ st.cands, CandOK c

theorem inv_init : Inv SState.init := by
  constructor
  · rfl
  · intro c hc
    simp [SState.init] at hc

theorem inv_emit {st : SState} {p : List String} {cat : String} {sz : Nat} {pre : Bool}
    (h : Inv st) (hc : CandOK ⟨p, cat, sz, pre⟩) : Inv (emit st p cat sz pre) := by
  constructor
  · simp [emit, h.1]
  · intro c hmem
    simp only [emit, List.mem_append, List.mem_singleton] at hmem
    rcases hmem with h1 | h2
    · exact h.2 c h1
    · rw [h2]
      exact hc

theorem inv_emit_ite {st : SState} {p : List String} {cat : String} {sz : Nat} {pre : Bool}
    {cond : Prop} [Decidable cond] (h : Inv st) (hc : CandOK ⟨p, cat, sz, pre⟩) :
    Inv (if cond then emit st p cat sz pre else st) := by
  split
  · exact inv_emit h hc
  · exact h

theorem pycacheFold_inv (root : List String) :
    ∀ (es : EntryList) (st : SState), Inv st → Inv (pycacheFold root es st)
  | .nil, _, h => h
  | .cons (.dir n es2 le) rest, st, h =>
      pycacheFold_inv root rest _ (inv_emit_ite h (by simp [CandOK]))
  | .cons (.file _ _ _ _) rest, st, h => pycacheFold_inv root rest st h

theorem jupyterFold_inv (root : List String) :
    ∀ (es : EntryList) (st : SState), Inv st → Inv (jupyterFold root es st)
  | .nil, _, h => h
  | .cons (.dir n es2 le) rest, st, h =>
      jupyterFold_inv root rest _ (inv_emit_ite h (by simp [CandOK]))
  | .cons (.file _ _ _ _) rest, st, h => jupyterFold_inv root rest st h

theorem buildFold_inv (root : List String) :
    ∀ (es : EntryList) (st : SState), Inv st → Inv (buildFold root es st)
  | .nil, _, h => h
  | .cons (.dir n es2 le) rest, st, h =>
      buildFold_inv root rest _ (inv_emit_ite h (by simp [CandOK]))
  | .cons (.file _ _ _ _) rest, st, h => buildFold_inv root rest st h

theorem pycFold_inv (root : List String) :
    ∀ (es : EntryList) (st : SState), Inv st → Inv (eState (pycFold root es st))
  | .nil, _, h => h
  | .cons (.file n sz a serr) rest, st, h => by
      unfold pycFold
      split
      · split
        · exact h
        · exact pycFold_inv root rest _ (inv_emit h (by simp [CandOK]))
      · exact pycFold_inv root rest st h
  | .cons (.dir _ _ _) rest, st, h => pycFold_inv root rest st h

theorem tempFold_inv (root : List String) :
    ∀ (es : EntryList) (st : SState), Inv st → Inv (eState (tempFold root es st))
  | .nil, _, h => h
  | .cons (.file n sz a serr) rest, st, h => by
      unfold tempFold
      split
      · split
        · exact h
        · exact tempFold_inv root rest _ (inv_emit h (by simp [CandOK]))
      · exact tempFold_inv root rest st h
  | .cons (.dir _ _ _) rest, st, h => tempFold_inv root rest st h

theorem venvStep_inv (opts : ScanOptions) (now : Int) (root : List String)
    (e : Entry) (st : SState) (h : Inv st) : Inv (eState (venvStep opts now root e st)) := by
  unfold venvStep
  split
  · split
    · split
      · exact h
      · split
        · exact inv_emit h (by simp [CandOK])
        · exact h
    · exact h
  · exact h

theorem bindE_inv {x : Except SState SState} {f : SState → Except SState SState}
    (hx : Inv (eState x)) (hf : ∀ s, Inv s → Inv (eState (f s))) :
    Inv (eState (bindE x f)) := by
  cases x with
  | ok s => exact hf s hx
  | error e => exact hx

theorem processLevel_inv (opts : ScanOptions) (now : Int) (pe : List String × Entry)
    (st : SState) (h : Inv st) : Inv (eState (processLevel opts now pe st)) := by
  unfold processLevel
  refine bindE_inv ?_ fun s1 h1 => ?_
  · show Inv (if opts.pycache then pycacheFold pe.1 pe.2.childEntries st else st)
    split
    · exact pycacheFold_inv _ _ _ h
    · exact h
  refine bindE_inv ?_ fun s2 h2 => ?_
  · show Inv (eState (if opts.pyc_files then pycFold pe.1 pe.2.childEntries s1 else .ok s1))
    split
    · exact pycFold_inv _ _ _ h1
    · exact h1
  refine bindE_inv (venvStep_inv _ _ _ _ _ h2) fun s3 h3 => ?_
  refine bindE_inv ?_ fun s4 h4 => ?_
  · show Inv (if opts.jupyter then jupyterFold pe.1 pe.2.childEntries s3 else s3)
    split
    · exact jupyterFold_inv _ _ _ h3
    · exact h3
  refine bindE_inv ?_ fun s5 h5 => ?_
  · show Inv (eState (if opts.temp_files then tempFold pe.1 pe.2.childEntries s4 else .ok s4))
    split
    · exact tempFold_inv _ _ _ h4
    · exact h4
  show Inv (if opts.build_dirs then buildFold pe.1 pe.2.childEntries s5 else s5)
  split
  · exact buildFold_inv _ _ _ h5
  · exact h5

theorem scanCore_inv (opts : ScanOptions) (now : Int) :
    ∀ (lvls : List (List String × Entry)) (st : SState),
      Inv st → Inv (eState (scanCore opts now lvls st))
  | [], _, h => h
  | l :: ls, st, h => by
      unfold scanCore
      cases hp : processLevel opts now l st with
      | ok st2 =>
          have h2 := processLevel_inv opts now l st h
          rw [hp] at h2
          exact scanCore_inv opts now ls st2 h2
      | error e =>
          have h2 := processLevel_inv opts now l st h
          rw [hp] at h2
          exact h2

theorem finish_inv {x : Except SState SState} (warns : Nat) (h : Inv (eState x)) :
    (Scanner.finish x warns).count = (Scanner.finish x warns).cands.length ∧
    ∀ c ∈ (Scanner.finish x warns).cands, CandOK c := by
  cases x with
  | ok st => exact ⟨h.1, h.2⟩
  | error st => exact ⟨h.1, h.2⟩

theorem run_inv (w : Entry) (roots : List (List String)) (opts : ScanOptions)
    (now : Int) (stopAfter : Option Nat) :
    (Scanner.run w roots opts now stopAfter).count =
      (Scanner.run w roots opts now stopAfter).cands.length ∧
    ∀ c ∈ (Scanner.run w roots opts now stopAfter).cands, CandOK c := by
  simp only [Scanner.run]
  by_cases hv : (List.filter (fun p => pathExistsB w p) roots).isEmpty = true
  · rw [if_pos hv]
    exact ⟨rfl, fun c hc => by simp at hc⟩
  · rw [if_neg hv]
    exact finish_inv _ (scanCore_inv opts now _ SState.init inv_init)

theorem finish_warnLogs (x : Except SState SState) (warns : Nat) :
    (Scanner.finish x warns).warnLogs = warns := by
  cases x <;> rfl

theorem finish_cands_congr (x : Except SState SState) (wa wb : Nat) :
    (Scanner.finish x wa).cands = (Scanner.finish x wb).cands := by
  cases x <;> rfl

theorem cleanLoop_noFail :
    ∀ (items : List (List String × String × Nat)) (w : Entry) (st : CState),
      (cleanLoop [] items w st).2.removed = st.removed + items.length ∧
      (cleanLoop [] items w st).2.errLogs = st.errLogs ∧
      (cleanLoop [] items w st).2.progress = st.progress + items.length
  | [], w, st => by simp [cleanLoop]
  | (p, t, sz) :: rest, w, st => by
      by_cases hd : isDirAt w p ∨ isFileAt w p
      · have ih := cleanLoop_noFail rest (removePath w p)
          ⟨st.removed + 1, st.bytes + sz, st.errLogs, st.progress + 1⟩
        simp only [cleanLoop, hd, if_true, List.not_mem_nil, if_false] at ih ⊢
        refine ⟨?_, ?_, ?_⟩ <;> simp [ih.1, ih.2.1, ih.2.2] <;> omega
      · have ih := cleanLoop_noFail rest w
          ⟨st.removed + 1, st.bytes + sz, st.errLogs, st.progress + 1⟩
        simp only [cleanLoop, hd, if_false] at ih ⊢
        refine ⟨?_, ?_, ?_⟩ <;> simp [ih.1, ih.2.1, ih.2.2] <;> omega

theorem sizeEntries_eq_spec :
    ∀ (es : EntryList), errFreeList es = true → sizeEntries es = specSizeEntries es
  | .nil, _ => rfl
  | .cons (.file nm sz a false) rest, h => by
      have hr : errFreeList rest = true := by simpa [errFreeList] using h
      simp only [sizeEntries, specSizeEntries, if_neg]
      rw [sizeEntries_eq_spec rest hr]
      simp
  | .cons (.file nm sz a true) rest, h => by simp [errFreeList] at h
  | .cons (.dir nm es2 le) rest, h => by
      have h2 := h
      simp only [errFreeList, Bool.and_eq_true, Bool.not_eq_true'] at h2
      obtain ⟨⟨hle, hes⟩, hrest⟩ := h2
      subst hle
      simp only [sizeEntries, specSizeEntries]
      rw [sizeEntries_eq_spec es2 hes, sizeEntries_eq_spec rest hrest]

/-- Claim C1 counterexample: on the tree of the end-to-end test with only
the pycache and pyc rules enabled, scan emits 3 candidates totaling 40
bytes, not 2 candidates totaling 30 bytes: the walker never prunes the
matched __pycache__ directory out of the walk, so a.pyc inside it is also
emitted by the pyc rule. -/
theorem scan_end_to_end_cex :
    scan1.count = 3 ∧ scan1.bytesAccum = 40 ∧
    ¬ (scan1.count = 2 ∧ scan1.bytesAccum = 30) := by decide

/-- Claim C1 (amended): the same scan emits exactly the two candidates
the specification lists plus a third pyc candidate for the a.pyc inside
the matched __pycache__ directory, totaling 40 bytes; cleaning the
__pycache__ directory candidate and the module.pyc candidate removes
both paths (and with them a.pyc) and reports items_cleaned 2 with 30
accumulated freed bytes and no error. -/
theorem scan_end_to_end_amended :
    scan1.success = true ∧
    scan1.cands = [⟨["tree", "proj", "__pycache__"], "pycache", 10, true⟩,
                   ⟨["tree", "proj", "module.pyc"], "pyc", 20, true⟩,
                   ⟨["tree", "proj", "__pycache__", "a.pyc"], "pyc", 10, true⟩] ∧
    scan1.count = 3 ∧ scan1.bytesAccum = 40 ∧
    clean1.itemsRemoved = 2 ∧ clean1.bytesAccum = 30 ∧ clean1.errLogs = 0 ∧
    pathExistsB clean1.world ["tree", "proj", "__pycache__"] = false ∧
    pathExistsB clean1.world ["tree", "proj", "module.pyc"] = false ∧
    pathExistsB clean1.world ["tree", "proj", "__pycache__", "a.pyc"] = false ∧
    pathExistsB clean1.world ["tree", "proj"] = true := by decide

/-- Claim C2 counterexample: cleaning a three-item list whose middle path
does not exist yields items_cleaned 3 with no error logged, not 2 with
one error: a path that is neither a directory nor a file skips both
deletion branches without raising, and the counters still advance. -/
theorem clean_missing_cex :
    clean2.itemsRemoved = 3 ∧ clean2.errLogs = 0 ∧ clean2.progressEmits = 3 ∧
    ¬ (clean2.itemsRemoved = 2 ∧ clean2.errLogs = 1) := by decide

/-- Claim C2 (amended): on a candidate list in which exactly one path no
longer exists and every attempted deletion succeeds, clean still attempts
every item and logs no error, but reports itemsRemoved equal to the full
total: the missing path is silently counted as removed. -/
theorem clean_missing_amended (w : Entry) (items : List (List String × String × Nat))
    (hone : (items.countP fun it => ! pathExistsB w it.1) = 1) :
    (Cleaner.run w items [] none).itemsRemoved = items.length ∧
    (Cleaner.run w items [] none).errLogs = 0 ∧
    (Cleaner.run w items [] none).progressEmits = items.length := by
  have h := cleanLoop_noFail items w ⟨0, 0, 0, 0⟩
  simp only [Cleaner.run]
  rcases hcl : cleanLoop [] items w ⟨0, 0, 0, 0⟩ with ⟨w2, stc⟩
  rw [hcl] at h
  simpa using h

theorem clean_missing_amended_witness :
    (items3.countP fun it => ! pathExistsB w2 it.1) = 1 ∧
    ((Cleaner.run w2 items3 [] none).itemsRemoved = items3.length ∧
     (Cleaner.run w2 items3 [] none).errLogs = 0 ∧
     (Cleaner.run w2 items3 [] none).progressEmits = items3.length) :=
  ⟨by decide, clean_missing_amended w2 items3 (by decide)⟩

/-- Claim C3: with the build rule enabled, a directory is emitted as a
build candidate exactly when its name is literally build, dist or
*.egg-info; the directory foo.egg-info, which matches the intended glob,
is not emitted, because the source compares dir_name against the literal
list and never glob-expands the pattern string. -/
theorem build_rule_literal_only :
    (Scanner.run w3 [["tree3"]] opts3 0 none).cands =
      [⟨["tree3", "build"], "build", 0, true⟩,
       ⟨["tree3", "dist"], "build", 0, true⟩,
       ⟨["tree3", "*.egg-info"], "build", 0, true⟩] ∧
    ∀ c ∈ (Scanner.run w3 [["tree3"]] opts3 0 none).cands,
      c.path ≠ ["tree3", "foo.egg-info"] := by decide

/-- Claim C4: when the walk reaches a venv-marked directory with zero
direct file entries, the ValueError from max over an empty sequence is
not caught per directory: it propagates to the top-level handler, the
scan aborts with success False and the later __pycache__ directory is
never emitted; disabling the venv rule on the same tree lets the scan
complete and emit it. -/
theorem venv_empty_dir_aborts_scan :
    (Scanner.run w4 [["tree4"]] opts4 9999999999 none).success = false ∧
    (Scanner.run w4 [["tree4"]] opts4 9999999999 none).cands = [] ∧
    (Scanner.run w4 [["tree4"]] opts4b 9999999999 none).success = true ∧
    (Scanner.run w4 [["tree4"]] opts4b 9999999999 none).cands =
      [⟨["tree4", "w", "__pycache__"], "pycache", 4, true⟩] := by decide

/-- Claim C5 counterexample: for a directory whose listing holds an
erroring file before an intact 7-byte file, Scanner._get_dir_size
returns 0, not the 7 the specification describes: the except wraps the
whole scandir loop, so the first stat error abandons the rest of the
listing. -/
theorem getDirSize_not_spec :
    Scanner.getDirSize d5 = 0 ∧ specDirSize d5 = 7 ∧
    ¬ Scanner.getDirSize d5 = specDirSize d5 := by decide

/-- Claim C5 (amended): on a directory whose subtree raises no stat or
scandir error, Scanner._get_dir_size computes exactly the sum of the
sizes of all regular files transitively contained; when an entry does
raise, that entry and the remainder of the same directory listing are
dropped, not just the erroring entry. -/
theorem getDirSize_eq_spec (n : String) (es : EntryList) (h : errFreeList es = true) :
    Scanner.getDirSize (Entry.dir n es false) = specDirSize (Entry.dir n es false) := by
  simp only [Scanner.getDirSize, specDirSize]
  rw [sizeEntries_eq_spec es h]

theorem getDirSize_eq_spec_witness :
    errFreeList (EntryList.ofList [Entry.file "good" 7 0 false]) = true ∧
    Scanner.getDirSize (Entry.dir "d" (EntryList.ofList [Entry.file "good" 7 0 false]) false) =
      specDirSize (Entry.dir "d" (EntryList.ofList [Entry.file "good" 7 0 false]) false) :=
  ⟨by decide, getDirSize_eq_spec "d" _ (by decide)⟩

/-- Claim C6: every candidate any scan emits carries the preselection
flag determined by its category: checked exactly when the category is
not venv, for every filesystem, root list, option set, time and stop
point. -/
theorem scan_preselected (w : Entry) (roots : List (List String)) (opts : ScanOptions)
    (now : Int) (stopAfter : Option Nat) (c : Candidate)
    (hc : c ∈ (Scanner.run w roots opts now stopAfter).cands) :
    c.preselected = true ↔ c.category ≠ "venv" :=
  (run_inv w roots opts now stopAfter).2 c hc

theorem scan_preselected_witness :
    (⟨["venv1"], "venv", 50, false⟩ : Candidate) ∈
      (Scanner.run w6 [["venv1"]] opts6 2600000 none).cands ∧
    ((⟨["venv1"], "venv", 50, false⟩ : Candidate).preselected = true ↔
      (⟨["venv1"], "venv", 50, false⟩ : Candidate).category ≠ "venv") :=
  ⟨by decide, scan_preselected w6 [["venv1"]] opts6 2600000 none _ (by decide)⟩

/-- Claim C7: scan logs one warning per nonexistent root and its
candidate output equals that of a scan over the valid roots alone; when
every root is missing it fails fast with success False, count 0, size 0
and no candidate. -/
theorem scan_root_validation (w : Entry) (roots : List (List String))
    (opts : ScanOptions) (now : Int) (stopAfter : Option Nat) :
    (Scanner.run w roots opts now stopAfter).warnLogs =
      (roots.filter fun p => ! pathExistsB w p).length ∧
    (Scanner.run w roots opts now stopAfter).cands =
      (Scanner.run w (roots.filter fun p => pathExistsB w p) opts now stopAfter).cands ∧
    ((∀ p ∈ roots, pathExistsB w p = false) →
      (Scanner.run w roots opts now stopAfter).success = false ∧
      (Scanner.run w roots opts now stopAfter).count = 0 ∧
      (Scanner.run w roots opts now stopAfter).sizeArg = 0 ∧
      (Scanner.run w roots opts now stopAfter).cands = []) := by
  have hff : (roots.filter fun p => pathExistsB w p).filter (fun p => pathExistsB w p) =
      roots.filter (fun p => pathExistsB w p) := by
    rw [List.filter_filter]
    simp
  refine ⟨?_, ?_, ?_⟩
  · simp only [Scanner.run]
    by_cases hv : (List.filter (fun p => pathExistsB w p) roots).isEmpty = true
    · rw [if_pos hv]
    · rw [if_neg hv, finish_warnLogs]
  · simp only [Scanner.run, hff]
    by_cases hv : (List.filter (fun p => pathExistsB w p) roots).isEmpty = true
    · rw [if_pos hv, if_pos hv]
    · rw [if_neg hv, if_neg hv]
      exact finish_cands_congr _ _ _
  · intro hall
    have hv : (roots.filter fun p => pathExistsB w p) = [] := by
      rw [List.filter_eq_nil_iff]
      intro a ha
      simp [hall a ha]
    simp only [Scanner.run, hv]
    exact ⟨rfl, rfl, rfl, rfl⟩

theorem scan_root_validation_witness :
    (∀ p ∈ [["nope"]], pathExistsB w1 p = false) ∧
    ((Scanner.run w1 [["nope"]] opts1 0 none).success = false ∧
     (Scanner.run w1 [["nope"]] opts1 0 none).count = 0 ∧
     (Scanner.run w1 [["nope"]] opts1 0 none).sizeArg = 0 ∧
     (Scanner.run w1 [["nope"]] opts1 0 none).cands = []) :=
  ⟨by decide, (scan_root_validation w1 [["nope"]] opts1 0 none).2.2 (by decide)⟩

/-- Claim C8: when the stop flag transitions after n walk iterations, at
a point where the levels processed so far raised no exception, the scan
terminates early with success True, and the reported count equals the
number of candidates emitted up to the stop point (no further candidate
is emitted). -/
theorem scan_stop (w : Entry) (roots : List (List String)) (opts : ScanOptions)
    (now : Int) (n : Nat) (st : SState)
    (hvalid : (roots.filter fun p => pathExistsB w p).isEmpty = false)
    (hok : scanCore opts now
        ((Scanner.levels w (roots.filter fun p => pathExistsB w p)).take n)
        SState.init = Except.ok st) :
    (Scanner.run w roots opts now (some n)).success = true ∧
    (Scanner.run w roots opts now (some n)).count = st.cands.length ∧
    (Scanner.run w roots opts now (some n)).cands = st.cands := by
  have hinv := scanCore_inv opts now
    ((Scanner.levels w (roots.filter fun p => pathExistsB w p)).take n) SState.init inv_init
  rw [hok] at hinv
  simp only [Scanner.run]
  rw [if_neg (by rw [hvalid]; exact Bool.false_ne_true)]
  rw [hok]
  exact ⟨rfl, hinv.1, rfl⟩

theorem scan_stop_witness :
    (((([["tree"]] : List (List String)).filter fun p => pathExistsB w1 p).isEmpty = false ∧
      scanCore opts1 0
        ((Scanner.levels w1 (([["tree"]] : List (List String)).filter fun p => pathExistsB w1 p)).take 2)
        SState.init = Except.ok stStop) ∧
     ((Scanner.run w1 [["tree"]] opts1 0 (some 2)).success = true ∧
      (Scanner.run w1 [["tree"]] opts1 0 (some 2)).count = stStop.cands.length ∧
      (Scanner.run w1 [["tree"]] opts1 0 (some 2)).cands = stStop.cands)) :=
  ⟨⟨by decide, by rfl⟩, scan_stop w1 [["tree"]] opts1 0 2 stStop (by decide) (by rfl)⟩

/-- Claim C9: scanning twice with the same roots and options over an
unchanged filesystem (the scan itself performs no write) yields an
identical candidate list, hence the same paths, categories and sizes. -/
theorem scan_deterministic (wa wb : Entry) (ra rb : List (List String))
    (oa ob : ScanOptions) (na nb : Int) (sa sb : Option Nat)
    (hw : wa = wb) (hr : ra = rb) (ho : oa = ob) (hn : na = nb) (hs : sa = sb) :
    (Scanner.run wa ra oa na sa).cands = (Scanner.run wb rb ob nb sb).cands := by
  subst hw
  subst hr
  subst ho
  subst hn
  subst hs
  rfl

theorem scan_deterministic_witness :
    w1 = w1 ∧
    (Scanner.run w1 [["tree"]] opts1 0 none).cands =
      (Scanner.run w1 [["tree"]] opts1 0 none).cands :=
  ⟨rfl, scan_deterministic w1 w1 [["tree"]] [["tree"]] opts1 opts1 0 0 none none
    rfl rfl rfl rfl rfl⟩

/-- Claim C10: both finished signals use inconsistent units between
their two exits: the success exit divides the byte accumulator by
1024 * 1024 while the except exit passes it raw, so an aborted run with a
nonzero accumulator reports 1048576 times what the success exit would
report for the same bytes; the scan of w10 aborts on the empty venv
directory with 7 accumulated bytes and indeed reports the raw value. -/
theorem finished_size_units (b : Nat) (hb : b ≠ 0) :
    scanSizeArgErr b = 1048576 * scanSizeArgOk b ∧
    cleanSizeArgErr b = 1048576 * cleanSizeArgOk b ∧
    (Scanner.run w10 [["tree10"]] opts4 9999999999 none).success = false ∧
    (Scanner.run w10 [["tree10"]] opts4 9999999999 none).bytesAccum = 7 ∧
    (Scanner.run w10 [["tree10"]] opts4 9999999999 none).sizeArg =
      scanSizeArgErr (Scanner.run w10 [["tree10"]] opts4 9999999999 none).bytesAccum := by
  refine ⟨?_, ?_, by decide, by decide, rfl⟩
  · simp only [scanSizeArgErr, scanSizeArgOk]
    field_simp
    ring
  · simp only [cleanSizeArgErr, cleanSizeArgOk]
    field_simp
    ring

theorem finished_size_units_witness :
    (30 : Nat) ≠ 0 ∧
    (scanSizeArgErr 30 = 1048576 * scanSizeArgOk 30 ∧
     cleanSizeArgErr 30 = 1048576 * cleanSizeArgOk 30 ∧
     (Scanner.run w10 [["tree10"]] opts4 9999999999 none).success = false ∧
     (Scanner.run w10 [["tree10"]] opts4 9999999999 none).bytesAccum = 7 ∧
     (Scanner.run w10 [["tree10"]] opts4 9999999999 none).sizeArg =
       scanSizeArgErr (Scanner.run w10 [["tree10"]] opts4 9999999999 none).bytesAccum) :=
  ⟨by decide, finished_size_units 30 (by decide)⟩

end PyCleaner
